import Mathlib

/-!
Verification development for the MSQ snap's origin-scoped identity protocol
(packages/shared/src/types.ts, packages/snap/src/index.ts, and the
apps/site origin store), a shallow embedding in Lean 4.

The snap's method handlers (packages/snap/src/protocols/identity.ts) and the
guard helper (packages/snap/src/utils.ts) are not part of the provided
sources; definitions standing in for them are modelled from the
specification and are marked `Modelled from the spec:` in their doc
comments.  Everything else is translated from the TypeScript sources.
-/

namespace MsqSnap

/-- Byte strings are modelled as lists of naturals. -/
abbrev Bytes := List Nat

/-- Website origin, e.g. `https://google.com` (`ZOrigin` in types.ts). -/
abbrev TOrigin := String

/-- The `ErrorCode` enum from packages/shared/src/types.ts, verbatim:
every machine-readable error code the snap can surface. -/
inductive ErrorCode where
  | UNKOWN
  | INVALID_RPC_METHOD
  | INVALID_INPUT
  | IC_ERROR
  | PROTECTED_METHOD
  | ICRC1_ERROR
  | METAMASK_ERROR
  | UNAUTHORIZED
  | SECURITY_VIOLATION
  | UNWRAP_ERROR
deriving DecidableEq, Repr, Fintype

/-- The wire string of each `ErrorCode` member, as written in types.ts. -/
def errorCodeText : ErrorCode → String
  | .UNKOWN => "MSQ_UNKNOWN"
  | .INVALID_RPC_METHOD => "MSQ_INVALID_RPC_METHOD"
  | .INVALID_INPUT => "MSQ_INVALID_INPUT"
  | .IC_ERROR => "MSQ_IC_ERROR"
  | .PROTECTED_METHOD => "MSQ_PROTECTED_METHOD"
  | .ICRC1_ERROR => "MSQ_ICRC1_ERROR"
  | .METAMASK_ERROR => "MSQ_METAMASK_ERROR"
  | .UNAUTHORIZED => "MSQ_UNAUTHORIZED"
  | .SECURITY_VIOLATION => "MSQ_SECURITY_VIOLATION"
  | .UNWRAP_ERROR => "MSQ_UNWRAP_ERROR"

/-- Entity-escaping of one character.  `escapeHtml` in types.ts delegates to
the third-party `sanitize-html` with `allowedTags: []`, `allowedAttributes: {}`
and `disallowedTagsMode: "escape"`; per its in-repo doc comment
("\x7b<p>haha</p>\x7d will become \x7b&lt;p&gt;haha&lt;p&gt;\x7d") the library is
modelled at its interface as HTML entity escaping of markup characters. -/
def escapeChar (c : Char) : List Char :=
  if c = '<' then ['&', 'l', 't', ';']
  else if c = '>' then ['&', 'g', 't', ';']
  else if c = '&' then ['&', 'a', 'm', 'p', ';']
  else [c]

/-- `escapeHtml` from types.ts: transforms any html into an escaped
version of itself. -/
def escapeHtml (s : String) : String :=
  ⟨(s.data.map escapeChar).flatten⟩

/-- `ZNonEmptyStrSanitized` from types.ts: a string of length at least 1,
transformed with `escapeHtml` on parse. -/
def parseNonEmptyStrSanitized (s : String) : Option String :=
  if 1 ≤ s.length then some (escapeHtml s) else none

/-- Splits a character list on the dash character ('-' groups of the
principal regex). -/
def splitDash : List Char → List (List Char)
  | [] => [[]]
  | c :: rest =>
      match splitDash rest with
      | [] => [[]]
      | g :: gs => if c = '-' then [] :: g :: gs else (c :: g) :: gs

/-- One character group of the `ZPrincipalStrSanitized` regex
`^[0-9a-zA-Z]\x7b1,5\x7d(\-[0-9a-zA-Z]\x7b1,5\x7d)*$`: 1 to 5 alphanumeric chars. -/
def validPrincipalGroup (g : List Char) : Bool :=
  decide (1 ≤ g.length) && decide (g.length ≤ 5) && g.all (fun c => c.isAlpha || c.isDigit)

/-- `ZPrincipalStrSanitized` from types.ts: dash-separated groups of 1-5
alphanumeric characters. -/
def parsePrincipalStrSanitized (s : String) : Option String :=
  if (splitDash s.data).all validPrincipalGroup then some s else none

/-- `ZMask` from types.ts: a per-origin, per-index public identity. -/
structure Mask where
  pseudonym : String
  principal : String
deriving DecidableEq, Repr

/-- Parsing an `\x7b pseudonym, principal \x7d` pair through `ZMask`
(`ZNonEmptyStrSanitized` for the pseudonym, `ZPrincipalStrSanitized` for the
principal). -/
def parseMask (pseudonym principal : String) : Option Mask :=
  match parseNonEmptyStrSanitized pseudonym, parsePrincipalStrSanitized principal with
  | some p, some q => some ⟨p, q⟩
  | _, _ => none

/-- `ZSession` from types.ts (the source spells the field
`deriviationOrigin`): the live binding of a visiting origin to a mask and a
derivation origin. -/
structure Session where
  identityId : Nat
  deriviationOrigin : TOrigin
  timestampMs : Nat
deriving DecidableEq, Repr

/-- `ZOriginData` from types.ts: per-website data.  The snap stores masks as
a string-keyed record whose key is the stringified index; the index within
the mask list is the `identityId`, so masks are modelled as the ordered
list. -/
structure OriginData where
  masks : List Mask
  linksFrom : List TOrigin
  linksTo : List TOrigin
  currentSession : Option Session
deriving DecidableEq, Repr

/-- The origin data record a website starts from (created lazily by the
snap: no masks, no links, no session). -/
def OriginData.empty : OriginData := ⟨[], [], [], none⟩

/-- The `originData` component of `ZState`: a map from origins to their
data, modelled as an association list (`z.record(ZOrigin, optional
ZOriginData)` in types.ts). -/
abbrev State := List (TOrigin × OriginData)

/-- Reads an origin's record, defaulting to the empty record (the snap
creates records lazily, treating an absent record as empty). -/
def getOD : State → TOrigin → OriginData
  | [], _ => OriginData.empty
  | (k, d) :: rest, o => if o = k then d else getOD rest o

/-- Writes an origin's record (insert-or-replace). -/
def setOD : State → TOrigin → OriginData → State
  | [], o, d => [(o, d)]
  | (k, e) :: rest, o, d => if o = k then (k, d) :: rest else (k, e) :: setOD rest o d

/-- Modelled from the spec: the Key Derivation Engine (not under the
provided sources) turns `(master entropy, derivation origin, identity
index, optional salt)` into a reproducible keypair via a domain-separated
hash expanded HKDF-style.  The hash pipeline is idealized as injective, so
a derived key is represented by its derivation path itself. -/
structure KeyPath where
  masterEntropy : Bytes
  derivationOrigin : TOrigin
  identityId : Nat
  salt : Option Bytes
deriving DecidableEq, Repr

/-- Modelled from the spec: `derive(masterEntropy, derivationOrigin,
identityId, salt?)`, a pure function of its inputs. -/
def derive (me : Bytes) (origin : TOrigin) (id : Nat) (salt : Option Bytes) : KeyPath :=
  ⟨me, origin, id, salt⟩

/-- A public key; in the idealized engine the public key determines and is
determined by the derivation path. -/
abbrev PubKey := KeyPath

/-- Modelled from the spec: `publicKey(privateKeyHandle) -> bytes`. -/
def publicKey (kp : KeyPath) : PubKey := kp

/-- A signature.  Signing is deterministic (no randomness), so a signature
is determined by the signing key's path and the signed message; the fixed
domain-separation prefix and the hash are abstracted away since every claim
concerns only equality or inequality of signatures. -/
structure Sig where
  key : KeyPath
  message : Bytes
deriving DecidableEq, Repr

/-- Modelled from the spec: `sign(privateKeyHandle, messageHash) ->
signature`, not randomized. -/
def signMsg (kp : KeyPath) (msg : Bytes) : Sig := ⟨kp, msg⟩

/-- Modelled from the spec: `getOrCreateMask` derives the mask for
`(origin, identityId)`; the pseudonym and principal are generated
deterministically from the derived public key.  The textual encoding of
the principal is abstracted to a deterministic function of the derivation
path components, which no claim depends on. -/
def maskFor (_me : Bytes) (origin : TOrigin) (id : Nat) : Mask :=
  { pseudonym := "Mask #" ++ toString id ++ " at " ++ origin,
    principal := toString id }

-- ---------------------------------------------------------------------
-- Origin Registry and Session Manager operations.
-- ---------------------------------------------------------------------

/-- Inserts an element into a link list if it is not already present
(links behave as sets stored as record keys in the snap state). -/
def insertOnce (x : TOrigin) (xs : List TOrigin) : List TOrigin :=
  if x ∈ xs then xs else xs ++ [x]

/-- Modelled from the spec: linking `a → b` (snap handler behind
`public_identity_requestLink` / the site's link flow, not under the
provided sources) idempotently inserts the mirrored edge
`b ∈ a.linksTo`, `a ∈ b.linksFrom`; a self-link violates the registry
invariant and is refused. -/
def linkOp (st : State) (a b : TOrigin) : Except ErrorCode State :=
  if a = b then .error .SECURITY_VIOLATION
  else
    let st1 := setOD st a { getOD st a with linksTo := insertOnce b (getOD st a).linksTo }
    .ok (setOD st1 b { getOD st1 b with linksFrom := insertOnce a (getOD st1 b).linksFrom })

/-- `linkOp` as a total state transformer: a refused link leaves the
state untouched. -/
def linkS (st : State) (a b : TOrigin) : State :=
  match linkOp st a b with
  | .ok st' => st'
  | .error _ => st

/-- Clears a record's session when the session's derivation origin is the
given other endpoint (a live session must never survive the edge it
depends on, spec 4.2). -/
def killDependentSession (d : OriginData) (other : TOrigin) : OriginData :=
  match d.currentSession with
  | some s => if s.deriviationOrigin = other then { d with currentSession := none } else d
  | none => d

/-- Modelled from the spec: `unlinkOne(a, b)` (snap handler behind
`protected_identity_unlinkOne`, not under the provided sources; the site's
local mirror of the same removal is `unlinkOne` in
apps/site/src/frontend/store/origins.tsx): removes `b` from `a.linksTo`
and `a` from `b.linksFrom`, and invalidates a session on either endpoint
whose derivation origin is the other endpoint. -/
def unlinkOne (st : State) (a b : TOrigin) : State :=
  let st1 := setOD st a
    (killDependentSession { getOD st a with linksTo := (getOD st a).linksTo.filter (fun x => x ≠ b) } b)
  setOD st1 b
    (killDependentSession { getOD st1 b with linksFrom := (getOD st1 b).linksFrom.filter (fun x => x ≠ a) } a)

/-- Removes `a` from a record's `linksFrom` and invalidates its session if
it derived from `a`. -/
def removeRec (a : TOrigin) (d : OriginData) : OriginData :=
  killDependentSession { d with linksFrom := d.linksFrom.filter (fun x => x ≠ a) } a

/-- Removes `a` from one target's `linksFrom` and invalidates the target's
session if it derived from `a`; one step of `unlinkAll`'s loop (mirroring
the loop body in origins.tsx `unlinkAll`). -/
def removeLinkFromTarget (a : TOrigin) (st : State) (b : TOrigin) : State :=
  setOD st b (removeRec a (getOD st b))

/-- Clears a record's session when the session's derivation origin lies in
the given list of removed link targets. -/
def killSessionIfDerivIn (d : OriginData) (others : List TOrigin) : OriginData :=
  match d.currentSession with
  | some s => if s.deriviationOrigin ∈ others then { d with currentSession := none } else d
  | none => d

/-- Modelled from the spec: `unlinkAll(a)` (snap handler behind
`protected_identity_unlinkAll`; the site's local mirror is `unlinkAll` in
origins.tsx): empties `a.linksTo`, removes `a` from every target's
`linksFrom`, and invalidates the sessions that depended on a removed
edge. -/
def unlinkAll (st : State) (a : TOrigin) : State :=
  let old := (getOD st a).linksTo
  let st1 := old.foldl (removeLinkFromTarget a) st
  setOD st1 a (killSessionIfDerivIn { getOD st1 a with linksTo := [] } old)

/-- Modelled from the spec: `login(toOrigin, identityId, linkedOrigin?)`
(snap handler `protected_handleIdentityLogin`, not under the provided
sources).  Without `linkedOrigin` the derivation origin is `toOrigin`
itself; with it, the directed edge `linkedOrigin → toOrigin` must exist
(`linkedOrigin ∈ toOrigin.linksFrom`), otherwise the call fails with the
`Unauthorized` error kind (spec 7 lists "login with an unauthorized link"
under `Unauthorized`; the ErrorCode enum in types.ts has no dedicated
link-violation code).  On success the record's `currentSession` is set.
On-demand mask creation under the derivation origin is permitted by the
spec and elided here: it touches only the mask list, which no claim about
`login` depends on. -/
def login (st : State) (toOrigin : TOrigin) (identityId : Nat)
    (withLinkedOrigin : Option TOrigin) (nowMs : Nat) : Except ErrorCode State :=
  match withLinkedOrigin with
  | some lo =>
      if lo ∈ (getOD st toOrigin).linksFrom then
        .ok (setOD st toOrigin
          { getOD st toOrigin with currentSession := some ⟨identityId, lo, nowMs⟩ })
      else .error .UNAUTHORIZED
  | none =>
      .ok (setOD st toOrigin
        { getOD st toOrigin with currentSession := some ⟨identityId, toOrigin, nowMs⟩ })

/-- `login` as a total state transformer: a failed login leaves the state
untouched (validate-then-commit, spec 7). -/
def loginS (st : State) (toOrigin : TOrigin) (identityId : Nat)
    (withLinkedOrigin : Option TOrigin) (nowMs : Nat) : State :=
  match login st toOrigin identityId withLinkedOrigin nowMs with
  | .ok st' => st'
  | .error _ => st

/-- Modelled from the spec: `logout(origin)` / `stopSession(origin)`
clears the record's session; always succeeds. -/
def logout (st : State) (origin : TOrigin) : State :=
  setOD st origin { getOD st origin with currentSession := none }

/-- Modelled from the spec: `protected_handleIdentityAdd` appends the next
mask for the origin (append-only, index = identityId). -/
def addMask (me : Bytes) (st : State) (origin : TOrigin) : State :=
  setOD st origin
    { getOD st origin with
      masks := (getOD st origin).masks ++ [maskFor me origin (getOD st origin).masks.length] }

-- ---------------------------------------------------------------------
-- Signing Engine handlers.
-- ---------------------------------------------------------------------

/-- Modelled from the spec: `handleIdentityGetPublicKey(origin)` (snap
handler, not under the provided sources).  Per the dispatch in
packages/snap/src/index.ts it receives only the caller origin — the
request body never reaches it.  It requires an active session and
re-derives the key from `(masterEntropy, session.deriviationOrigin,
session.identityId)`. -/
def handleIdentityGetPublicKey (me : Bytes) (st : State) (origin : TOrigin) :
    Except ErrorCode PubKey :=
  match (getOD st origin).currentSession with
  | none => .error .UNAUTHORIZED
  | some s => .ok (publicKey (derive me s.deriviationOrigin s.identityId none))

/-- Modelled from the spec: `handleIdentitySign(body, origin)` (snap
handler, not under the provided sources).  Requires an active session for
the caller origin, derives the signing key from `(masterEntropy,
session.deriviationOrigin, session.identityId, salt)` and signs the
canonical request bytes; signing is not randomized. -/
def handleIdentitySign (me : Bytes) (st : State) (origin : TOrigin)
    (request : Bytes) (salt : Bytes) : Except ErrorCode Sig :=
  match (getOD st origin).currentSession with
  | none => .error .UNAUTHORIZED
  | some s => .ok (signMsg (derive me s.deriviationOrigin s.identityId (some salt)) request)

/-- `getLoginOptions` (origins.tsx `getLoginOptions`): the caller's own
masks followed by the masks of each origin in its `linksFrom`. -/
def loginOptions (st : State) (forOrigin : TOrigin) : List (TOrigin × List Mask) :=
  (forOrigin, (getOD st forOrigin).masks) ::
    (getOD st forOrigin).linksFrom.map (fun o => (o, (getOD st o).masks))

-- ---------------------------------------------------------------------
-- Access Gate and RPC dispatch (packages/snap/src/index.ts).
-- ---------------------------------------------------------------------

/-- The one hardcoded trusted wallet origin (the MSQ snap website).  Its
literal value lives in build configuration outside the provided sources;
any fixed string represents it. -/
def MSQ_SNAP_SITE_ORIGIN : TOrigin := "https://msq.tech"

/-- The `protected` half of `SNAP_METHODS` from types.ts, verbatim: the
method strings that only the trusted wallet origin may invoke. -/
def protectedMethods : List String :=
  [ "protected_identity_add",
    "protected_identity_login",
    "protected_identity_getLoginOptions",
    "protected_identity_editPseudonym",
    "protected_identity_stopSession",
    "protected_identity_unlinkOne",
    "protected_identity_unlinkAll",
    "protected_icrc1_addAsset",
    "protected_icrc1_addAssetAccount",
    "protected_icrc1_editAssetAccount",
    "protected_statistics_get",
    "protected_statistics_increment",
    "protected_statistics_reset",
    "protected_state_getAllOriginData",
    "protected_state_getAllAssetData" ]

/-- Modelled from the spec: `guardMethods` from packages/snap/src/utils.ts
(not under the provided sources; imported by index.ts as
`guardProtectedMethods`): a method classified protected executes only when
the caller origin is the trusted wallet origin, any other caller fails
with `ErrorCode.PROTECTED_METHOD`. -/
def guardMethods (method : String) (origin : TOrigin) : Except ErrorCode Unit :=
  if method ∈ protectedMethods then
    if origin = MSQ_SNAP_SITE_ORIGIN then .ok () else .error .PROTECTED_METHOD
  else .ok ()

/-- The decoded request body of a snap RPC call, one variant per request
schema in types.ts (the CBOR wire decoding and zod validation happen
before the embedded core runs). -/
inductive RequestBody where
  | loginReq (toOrigin : TOrigin) (withIdentityId : Nat) (withLinkedOrigin : Option TOrigin)
  | addReq (toOrigin : TOrigin)
  | getLoginOptionsReq (forOrigin : TOrigin)
  | signReq (request : Bytes) (salt : Bytes)
  | getPublicKeyReq (salt : Option Bytes)
  | linkReq (withOrigin : TOrigin)
  | unlinkReq (withOrigin : TOrigin)
  | emptyReq
deriving DecidableEq, Repr

/-- The decoded response of a snap RPC call. -/
inductive Response where
  | boolResp (b : Bool)
  | maskResp (m : Mask)
  | pubkeyResp (k : PubKey)
  | sigResp (s : Sig)
  | linksResp (ls : List TOrigin)
  | loginOptionsResp (opts : List (TOrigin × List Mask))
  | unitResp
deriving DecidableEq, Repr

/-- The method dispatch of `onRpcRequest` in packages/snap/src/index.ts:
the switch over `SNAP_METHODS`, one arm per case in the source.  Arms
whose handlers act outside the identity core (`showTransferConfirm`,
statistics) touch no origin data and answer with a unit response; an
unknown method fails with `ErrorCode.INVALID_RPC_METHOD`; a body that does
not match the method's schema fails with `ErrorCode.INVALID_INPUT`
(`zodParse`). -/
def dispatch (me : Bytes) (st : State) (origin : TOrigin) (method : String)
    (body : RequestBody) (nowMs : Nat) : Except ErrorCode (State × Response) :=
  if method = "protected_identity_add" then
    match body with
    | .addReq toOrigin =>
        .ok (addMask me st toOrigin,
             .maskResp (maskFor me toOrigin (getOD st toOrigin).masks.length))
    | _ => .error .INVALID_INPUT
  else if method = "protected_identity_login" then
    match body with
    | .loginReq toOrigin withIdentityId withLinkedOrigin =>
        (login st toOrigin withIdentityId withLinkedOrigin nowMs).map
          (fun st' => (st', .boolResp true))
    | _ => .error .INVALID_INPUT
  else if method = "protected_identity_getLoginOptions" then
    match body with
    | .getLoginOptionsReq forOrigin => .ok (st, .loginOptionsResp (loginOptions st forOrigin))
    | _ => .error .INVALID_INPUT
  else if method = "protected_icrc1_showTransferConfirm" then .ok (st, .unitResp)
  else if method = "protected_statistics_get" then .ok (st, .unitResp)
  else if method = "protected_statistics_reset" then .ok (st, .unitResp)
  else if method = "public_identity_sign" then
    match body with
    | .signReq request salt =>
        (handleIdentitySign me st origin request salt).map (fun sg => (st, .sigResp sg))
    | _ => .error .INVALID_INPUT
  else if method = "public_identity_getPublicKey" then
    -- per index.ts the request body is NOT passed to the handler:
    -- `handleIdentityGetPublicKey(origin)`
    (handleIdentityGetPublicKey me st origin).map (fun k => (st, .pubkeyResp k))
  else if method = "public_identity_requestLogout" then
    .ok (logout st origin, .boolResp true)
  else if method = "public_identity_requestLink" then
    match body with
    | .linkReq withOrigin => (linkOp st origin withOrigin).map (fun st' => (st', .boolResp true))
    | _ => .error .INVALID_INPUT
  else if method = "public_identity_requestUnlink" then
    match body with
    | .unlinkReq withOrigin => .ok (unlinkOne st origin withOrigin, .boolResp true)
    | _ => .error .INVALID_INPUT
  else if method = "public_identity_getLinks" then
    .ok (st, .linksResp (getOD st origin).linksTo)
  else if method = "public_identity_sessionExists" then
    .ok (st, .boolResp (getOD st origin).currentSession.isSome)
  else .error .INVALID_RPC_METHOD

/-- `onRpcRequest` from packages/snap/src/index.ts: validates the request,
runs `guardProtectedMethods(req.method, origin)` once, and only then
dispatches on the method. -/
def onRpcRequest (me : Bytes) (st : State) (origin : TOrigin) (method : String)
    (body : RequestBody) (nowMs : Nat) : Except ErrorCode (State × Response) :=
  match guardMethods method origin with
  | .error e => .error e
  | .ok _ => dispatch me st origin method body nowMs

instance {ε α : Type} [DecidableEq ε] [DecidableEq α] : DecidableEq (Except ε α) := fun x y =>
  match x, y with
  | .ok a, .ok b => if h : a = b then .isTrue (by rw [h]) else .isFalse (by simp [h])
  | .ok _, .error _ => .isFalse (by simp)
  | .error _, .ok _ => .isFalse (by simp)
  | .error e, .error f => if h : e = f then .isTrue (by rw [h]) else .isFalse (by simp [h])

-- ---------------------------------------------------------------------
-- Registry invariant and the mutation alphabet.
-- ---------------------------------------------------------------------

/-- The link-mirror invariant of the registry (spec 4.2): `linksFrom` and
`linksTo` are exact mirrors across the whole registry, and no origin links
to itself. -/
def mirrorInv (st : State) : Prop :=
  (∀ A B : TOrigin, B ∈ (getOD st A).linksTo ↔ A ∈ (getOD st B).linksFrom) ∧
  (∀ A : TOrigin, A ∉ (getOD st A).linksTo)

/-- The state-mutating registry and session operations. -/
inductive RegOp where
  | opLink (a b : TOrigin)
  | opUnlinkOne (a b : TOrigin)
  | opUnlinkAll (a : TOrigin)
  | opLogin (toOrigin : TOrigin) (identityId : Nat) (withLinkedOrigin : Option TOrigin) (nowMs : Nat)
  | opLogout (a : TOrigin)
  | opAddMask (a : TOrigin)
deriving DecidableEq, Repr

/-- Applies one mutating operation to the registry state; a failing
operation leaves the state untouched (validate-then-commit, spec 7). -/
def applyOp (me : Bytes) (st : State) : RegOp → State
  | .opLink a b => linkS st a b
  | .opUnlinkOne a b => unlinkOne st a b
  | .opUnlinkAll a => unlinkAll st a
  | .opLogin t i lo n => loginS st t i lo n
  | .opLogout a => logout st a
  | .opAddMask a => addMask me st a

-- ---------------------------------------------------------------------
-- Concrete sample data used by the witnesses.
-- ---------------------------------------------------------------------

/-- A sample origin (used by the snap's tests). -/
def gOrigin : TOrigin := "https://google.com"

/-- A second sample origin (used by the snap's tests). -/
def dOrigin : TOrigin := "https://dfinity.org"

/-- Sample master entropy. -/
def demoEntropy : Bytes := [7, 7, 7]

/-- A sample session on `gOrigin` deriving from `gOrigin` itself. -/
def demoSession : Session := ⟨0, gOrigin, 0⟩

/-- A sample registry: `gOrigin → dOrigin` is linked (mirrored), both
origins have live sessions deriving from `gOrigin`. -/
def demoState : State :=
  [ (gOrigin,
     { masks := [maskFor demoEntropy gOrigin 0], linksFrom := [], linksTo := [dOrigin],
       currentSession := some demoSession }),
    (dOrigin,
     { masks := [], linksFrom := [gOrigin], linksTo := [],
       currentSession := some ⟨0, gOrigin, 1⟩ }) ]

/-- The state after logging `gOrigin` in directly on `demoState`. -/
def c4State1 : State := loginS demoState gOrigin 0 none 5

/-- The state after additionally logging `dOrigin` in through the linked
origin `gOrigin`. -/
def c4State2 : State := loginS c4State1 dOrigin 0 (some gOrigin) 6

end MsqSnap

-- ---------------------------------------------------------------------
-- Theorems.
-- ---------------------------------------------------------------------

namespace MsqSnap

theorem getOD_setOD (st : State) (o : TOrigin) (d : OriginData) (x : TOrigin) :
    getOD (setOD st o d) x = if x = o then d else getOD st x := by
  induction st with
  | nil =>
      by_cases hxo : x = o <;> simp [setOD, getOD, hxo]
  | cons hd tl ih =>
      obtain ⟨k, e⟩ := hd
      by_cases hok : o = k
      · subst hok
        by_cases hxo : x = o <;> simp [setOD, getOD, hxo]
      · by_cases hxk : x = k
        · subst hxk
          simp [setOD, getOD, hok]
          rw [if_neg (fun hxo => hok hxo.symm)]
        · simp [setOD, getOD, hok, hxk, ih]

/-- C1: an inbound RPC call to a protected method from any origin other
than the single hardcoded trusted wallet origin fails with
`PROTECTED_METHOD` at the gate, which runs once before method dispatch (no
handler executes, no state is produced); the trusted origin passes the
gate for every method. -/
theorem C1_protected_gate (me : Bytes) (st : State) (origin method : String)
    (body : RequestBody) (nowMs : Nat)
    (hm : method ∈ protectedMethods) (ho : origin ≠ MSQ_SNAP_SITE_ORIGIN) :
    onRpcRequest me st origin method body nowMs = .error .PROTECTED_METHOD ∧
    (∀ m : String, guardMethods m MSQ_SNAP_SITE_ORIGIN = .ok ()) := by
  constructor
  · unfold onRpcRequest guardMethods
    simp [hm, ho]
  · intro m
    unfold guardMethods
    by_cases h : m ∈ protectedMethods <;> simp [h]

theorem C1_protected_gate_witness :
    "protected_identity_login" ∈ protectedMethods ∧
    ("https://evil.com" : TOrigin) ≠ MSQ_SNAP_SITE_ORIGIN ∧
    onRpcRequest [] [] "https://evil.com" "protected_identity_login"
      (.loginReq "https://google.com" 0 none) 0 = .error .PROTECTED_METHOD :=
  ⟨by decide, by decide,
    (C1_protected_gate [] [] "https://evil.com" "protected_identity_login"
      (.loginReq "https://google.com" 0 none) 0 (by decide) (by decide)).1⟩

/-- C2: from any caller origin with no active session, both
`public_identity_sign` and `public_identity_getPublicKey` fail with
`UNAUTHORIZED`; no key or signature is returned (the call produces an
error, not a response). -/
theorem C2_no_session_no_signing (me : Bytes) (st : State) (origin : TOrigin)
    (request salt : Bytes) (saltOpt : Option Bytes) (nowMs : Nat)
    (h : (getOD st origin).currentSession = none) :
    onRpcRequest me st origin "public_identity_sign" (.signReq request salt) nowMs
      = .error .UNAUTHORIZED ∧
    onRpcRequest me st origin "public_identity_getPublicKey" (.getPublicKeyReq saltOpt) nowMs
      = .error .UNAUTHORIZED := by
  constructor <;>
  · unfold onRpcRequest guardMethods dispatch handleIdentitySign handleIdentityGetPublicKey
    simp [protectedMethods, h, Except.map]

theorem C2_no_session_no_signing_witness :
    (getOD [] gOrigin).currentSession = none ∧
    onRpcRequest demoEntropy [] gOrigin "public_identity_sign" (.signReq [1, 2, 3, 4] []) 0
      = .error .UNAUTHORIZED ∧
    onRpcRequest demoEntropy [] gOrigin "public_identity_getPublicKey" (.getPublicKeyReq none) 0
      = .error .UNAUTHORIZED := by
  refine ⟨by decide, ?_⟩
  have h := C2_no_session_no_signing demoEntropy [] gOrigin [1, 2, 3, 4] [] none 0 (by decide)
  exact ⟨h.1, h.2⟩

/-- C3: signing is deterministic.  Under a fixed session, a
`public_identity_sign` call leaves the registry state unchanged and its
signature is a pure function of `(session, request, salt)`, so two
successive calls with the same `(request, salt)` — at any timestamps —
return the identical signature; no randomness enters the embedding. -/
theorem C3_sign_deterministic (me : Bytes) (st : State) (origin : TOrigin)
    (request salt : Bytes) (n1 n2 : Nat) (s : Session)
    (h : (getOD st origin).currentSession = some s) :
    ∃ σ : Sig,
      onRpcRequest me st origin "public_identity_sign" (.signReq request salt) n1
        = .ok (st, .sigResp σ) ∧
      onRpcRequest me st origin "public_identity_sign" (.signReq request salt) n2
        = .ok (st, .sigResp σ) := by
  refine ⟨signMsg (derive me s.deriviationOrigin s.identityId (some salt)) request, ?_, ?_⟩ <;>
  · unfold onRpcRequest guardMethods dispatch handleIdentitySign
    simp [protectedMethods, h, Except.map]

theorem C3_sign_deterministic_witness :
    (getOD demoState gOrigin).currentSession = some demoSession ∧
    (∃ σ : Sig,
      onRpcRequest demoEntropy demoState gOrigin "public_identity_sign" (.signReq [1, 2] [3]) 10
        = .ok (demoState, .sigResp σ) ∧
      onRpcRequest demoEntropy demoState gOrigin "public_identity_sign" (.signReq [1, 2] [3]) 11
        = .ok (demoState, .sigResp σ)) :=
  ⟨by decide,
    C3_sign_deterministic demoEntropy demoState gOrigin [1, 2] [3] 10 11 demoSession (by decide)⟩

/-- C5: key separation.  For a fixed identity index the keys derived for
two distinct derivation origins differ (including origins differing only
in scheme, which are distinct origin strings), and for a fixed origin the
keys derived for two distinct identity indices differ. -/
theorem C5_key_separation (me : Bytes) (o1 o2 o : TOrigin) (i i1 i2 : Nat)
    (salt : Option Bytes) (ho : o1 ≠ o2) (hi : i1 ≠ i2) :
    publicKey (derive me o1 i salt) ≠ publicKey (derive me o2 i salt) ∧
    publicKey (derive me o i1 salt) ≠ publicKey (derive me o i2 salt) := by
  constructor
  · intro hEq
    exact ho (congrArg KeyPath.derivationOrigin hEq)
  · intro hEq
    exact hi (congrArg KeyPath.identityId hEq)

theorem C5_key_separation_witness :
    ("http://google.com" : TOrigin) ≠ "https://google.com" ∧ (0 : Nat) ≠ 1 ∧
    (publicKey (derive demoEntropy "http://google.com" 0 none)
       ≠ publicKey (derive demoEntropy "https://google.com" 0 none) ∧
     publicKey (derive demoEntropy "http://google.com" 0 none)
       ≠ publicKey (derive demoEntropy "http://google.com" 1 none)) :=
  ⟨by decide, by decide,
    C5_key_separation demoEntropy "http://google.com" "https://google.com" "http://google.com"
      0 0 1 none (by decide) (by decide)⟩

/-- C8 counterexample: the claim says a login whose `linkedOrigin` edge is
missing fails with a machine-readable `UnauthorizedLink` error code, but
the `ErrorCode` enum in types.ts contains no such code (no member's wire
string is "MSQ_UNAUTHORIZED_LINK"); at the concrete failing input the
login fails with `UNAUTHORIZED` instead. -/
theorem C8_counterexample :
    (¬ ∃ c : ErrorCode, errorCodeText c = "MSQ_UNAUTHORIZED_LINK") ∧
    login [] "https://dfinity.org" 0 (some "https://google.com") 0
      = Except.error ErrorCode.UNAUTHORIZED := by
  exact ⟨by decide, by decide⟩

/-- C8 (amended): a `login(origin, identityId, linkedOrigin)` call whose
`linkedOrigin` is present but not in `origin.linksFrom` fails with the
`UNAUTHORIZED` error code (the enum has no dedicated link-violation code)
and creates no session: the state is left untouched. -/
theorem C8_unauthorized_link (st : State) (toOrigin lo : TOrigin) (i nowMs : Nat)
    (h : lo ∉ (getOD st toOrigin).linksFrom) :
    login st toOrigin i (some lo) nowMs = .error .UNAUTHORIZED ∧
    loginS st toOrigin i (some lo) nowMs = st := by
  unfold loginS login
  simp [h]

theorem C8_unauthorized_link_witness :
    ("https://google.com" : TOrigin) ∉ (getOD [] "https://dfinity.org").linksFrom ∧
    (login [] "https://dfinity.org" 0 (some "https://google.com") 0
       = .error .UNAUTHORIZED ∧
     loginS [] "https://dfinity.org" 0 (some "https://google.com") 0 = []) :=
  ⟨by decide, C8_unauthorized_link [] "https://dfinity.org" "https://google.com" 0 0 (by decide)⟩

/-- C9 counterexample: the claim says `getPublicKey` folds the
caller-supplied salt into the derivation so distinct salts yield distinct
keys; but the dispatch in index.ts calls `handleIdentityGetPublicKey(origin)`
without the request body, so at a concrete state with a live session two
calls with distinct salts return the identical key. -/
theorem C9_counterexample :
    (some [1] : Option Bytes) ≠ some [2] ∧
    onRpcRequest demoEntropy demoState gOrigin "public_identity_getPublicKey"
        (.getPublicKeyReq (some [1])) 0
      = onRpcRequest demoEntropy demoState gOrigin "public_identity_getPublicKey"
        (.getPublicKeyReq (some [2])) 0 ∧
    onRpcRequest demoEntropy demoState gOrigin "public_identity_getPublicKey"
        (.getPublicKeyReq (some [1])) 0
      = .ok (demoState, .pubkeyResp (publicKey (derive demoEntropy gOrigin 0 none))) := by
  exact ⟨by decide, by decide, by decide⟩

/-- C9 (amended): `public_identity_getPublicKey` ignores the request body
entirely — the dispatch passes only the caller origin to the handler — so
under an active session the returned key is a function of
`(masterEntropy, session.deriviationOrigin, session.identityId)` alone,
and any two calls under the same session return the same key regardless
of the salts in their bodies. -/
theorem C9_getPublicKey_ignores_salt (me : Bytes) (st : State) (origin : TOrigin)
    (b1 b2 : RequestBody) (n1 n2 : Nat) (s : Session)
    (h : (getOD st origin).currentSession = some s) :
    onRpcRequest me st origin "public_identity_getPublicKey" b1 n1
      = onRpcRequest me st origin "public_identity_getPublicKey" b2 n2 ∧
    onRpcRequest me st origin "public_identity_getPublicKey" b1 n1
      = .ok (st, .pubkeyResp (publicKey (derive me s.deriviationOrigin s.identityId none))) := by
  constructor <;>
  · unfold onRpcRequest guardMethods dispatch handleIdentityGetPublicKey
    simp [protectedMethods, h, Except.map]

theorem C9_getPublicKey_ignores_salt_witness :
    (getOD demoState gOrigin).currentSession = some demoSession ∧
    (onRpcRequest demoEntropy demoState gOrigin "public_identity_getPublicKey"
        (.getPublicKeyReq (some [9])) 3
      = onRpcRequest demoEntropy demoState gOrigin "public_identity_getPublicKey"
        (.getPublicKeyReq none) 4 ∧
     onRpcRequest demoEntropy demoState gOrigin "public_identity_getPublicKey"
        (.getPublicKeyReq (some [9])) 3
      = .ok (demoState, .pubkeyResp (publicKey (derive demoEntropy gOrigin 0 none)))) :=
  ⟨by decide,
    C9_getPublicKey_ignores_salt demoEntropy demoState gOrigin
      (.getPublicKeyReq (some [9])) (.getPublicKeyReq none) 3 4 demoSession (by decide)⟩

theorem escapeChar_ne_nil (c : Char) : escapeChar c ≠ [] := by
  unfold escapeChar
  split
  · simp
  · split
    · simp
    · split <;> simp

theorem lt_not_mem_escapeChar (c : Char) : '<' ∉ escapeChar c := by
  unfold escapeChar
  split
  · decide
  · split
    · decide
    · split
      · decide
      · rename_i h1 h2 h3
        simp
        exact fun hh => h1 hh.symm

theorem escapeHtml_length (s : String) (h : 1 ≤ s.length) : 1 ≤ (escapeHtml s).length := by
  unfold escapeHtml
  have hd : s.data ≠ [] := by
    intro hnil
    rw [String.length, hnil] at h
    exact absurd h (by decide)
  rw [String.length]
  cases hval : s.data with
  | nil => exact absurd hval hd
  | cons c t =>
      show 1 ≤ (((c :: t).map escapeChar).flatten).length
      rw [List.map_cons, List.flatten_cons, List.length_append]
      have : 1 ≤ (escapeChar c).length := by
        cases hec : escapeChar c with
        | nil => exact absurd hec (escapeChar_ne_nil c)
        | cons x xs => simp
      omega

theorem escapeHtml_no_lt (s : String) : ∀ c ∈ (escapeHtml s).data, c ≠ '<' := by
  intro c hc
  have hc' : c ∈ (s.data.map escapeChar).flatten := hc
  rw [List.mem_flatten] at hc'
  obtain ⟨l, hl, hcl⟩ := hc'
  rw [List.mem_map] at hl
  obtain ⟨ch, _, rfl⟩ := hl
  intro hlt
  rw [hlt] at hcl
  exact lt_not_mem_escapeChar ch hcl

/-- C10: every pseudonym accepted by the mask schema is stored as the
HTML-escaped form of the input: for an input of length at least 1 the
persisted `Mask.pseudonym` equals `escapeHtml` of the input, is non-empty,
and contains no raw '<' character. -/
theorem C10_pseudonym_sanitized (ps pr : String) (m : Mask)
    (hps : 1 ≤ ps.length) (h : parseMask ps pr = some m) :
    m.pseudonym = escapeHtml ps ∧ 1 ≤ m.pseudonym.length ∧
    ∀ c ∈ m.pseudonym.data, c ≠ '<' := by
  unfold parseMask parseNonEmptyStrSanitized at h
  rw [if_pos hps] at h
  rcases hpr : parsePrincipalStrSanitized pr with _ | q
  · rw [hpr] at h
    exact absurd h (by simp)
  · rw [hpr] at h
    simp at h
    have hm : m.pseudonym = escapeHtml ps := by rw [← h]
    refine ⟨hm, ?_, ?_⟩
    · rw [hm]; exact escapeHtml_length ps hps
    · rw [hm]; exact escapeHtml_no_lt ps

theorem C10_pseudonym_sanitized_witness :
    1 ≤ ("<p>haha</p>" : String).length ∧
    parseMask "<p>haha</p>" "aaaaa-aa"
      = some ⟨escapeHtml "<p>haha</p>", "aaaaa-aa"⟩ ∧
    ((⟨escapeHtml "<p>haha</p>", "aaaaa-aa"⟩ : Mask).pseudonym = escapeHtml "<p>haha</p>" ∧
     1 ≤ (⟨escapeHtml "<p>haha</p>", "aaaaa-aa"⟩ : Mask).pseudonym.length ∧
     ∀ c ∈ (⟨escapeHtml "<p>haha</p>", "aaaaa-aa"⟩ : Mask).pseudonym.data, c ≠ '<') :=
  ⟨by decide, by decide,
    C10_pseudonym_sanitized "<p>haha</p>" "aaaaa-aa" ⟨escapeHtml "<p>haha</p>", "aaaaa-aa"⟩
      (by decide) (by decide)⟩

theorem killDependentSession_linksTo (d : OriginData) (o : TOrigin) :
    (killDependentSession d o).linksTo = d.linksTo := by
  unfold killDependentSession
  split
  · split <;> rfl
  · rfl

theorem killDependentSession_linksFrom (d : OriginData) (o : TOrigin) :
    (killDependentSession d o).linksFrom = d.linksFrom := by
  unfold killDependentSession
  split
  · split <;> rfl
  · rfl

theorem killDependentSession_kills (d : OriginData) (o : TOrigin) (s : Session)
    (h : d.currentSession = some s) (hd : s.deriviationOrigin = o) :
    (killDependentSession d o).currentSession = none := by
  unfold killDependentSession
  rw [h]
  simp [hd]

theorem killDependentSession_none (d : OriginData) (o : TOrigin)
    (h : d.currentSession = none) : (killDependentSession d o).currentSession = none := by
  unfold killDependentSession
  rw [h]
  exact h

theorem unlinkOne_linksTo (st : State) (a b x : TOrigin) :
    (getOD (unlinkOne st a b) x).linksTo =
      if x = a then (getOD st a).linksTo.filter (fun y => y ≠ b) else (getOD st x).linksTo := by
  unfold unlinkOne
  by_cases hxb : x = b
  · subst hxb
    by_cases hxa : x = a
    · subst hxa
      simp [getOD_setOD, killDependentSession_linksTo]
    · simp [getOD_setOD, hxa, killDependentSession_linksTo]
  · by_cases hxa : x = a
    · subst hxa
      simp [getOD_setOD, hxb, killDependentSession_linksTo]
    · simp [getOD_setOD, hxb, hxa]

theorem unlinkOne_linksFrom (st : State) (a b x : TOrigin) :
    (getOD (unlinkOne st a b) x).linksFrom =
      if x = b then (getOD st b).linksFrom.filter (fun y => y ≠ a) else (getOD st x).linksFrom := by
  unfold unlinkOne
  by_cases hxb : x = b
  · subst hxb
    by_cases hxa : x = a
    · subst hxa
      simp [getOD_setOD, killDependentSession_linksTo, killDependentSession_linksFrom]
    · simp [getOD_setOD, hxa, killDependentSession_linksFrom]
  · by_cases hxa : x = a
    · subst hxa
      simp [getOD_setOD, hxb, killDependentSession_linksFrom]
    · simp [getOD_setOD, hxb, hxa]

theorem unlinkOne_kills_b (st : State) (a b : TOrigin) (s : Session)
    (hs : (getOD st b).currentSession = some s) (hd : s.deriviationOrigin = a) :
    (getOD (unlinkOne st a b) b).currentSession = none := by
  unfold unlinkOne
  rw [getOD_setOD, if_pos rfl]
  by_cases hba : b = a
  · subst hba
    rw [getOD_setOD, if_pos rfl]
    apply killDependentSession_none
    show (killDependentSession _ _).currentSession = none
    exact killDependentSession_kills _ _ s hs hd
  · rw [getOD_setOD, if_neg hba]
    exact killDependentSession_kills _ _ s hs hd

theorem unlinkOne_kills_a (st : State) (a b : TOrigin) (s : Session)
    (hs : (getOD st a).currentSession = some s) (hd : s.deriviationOrigin = b) :
    (getOD (unlinkOne st a b) a).currentSession = none := by
  unfold unlinkOne
  rw [getOD_setOD]
  by_cases hab : a = b
  · rw [if_pos hab]
    subst hab
    rw [getOD_setOD, if_pos rfl]
    apply killDependentSession_none
    show (killDependentSession _ _).currentSession = none
    exact killDependentSession_kills _ _ s hs hd
  · rw [if_neg hab, getOD_setOD, if_pos rfl]
    exact killDependentSession_kills _ _ s hs hd

/-- C6: after `unlinkOne(a, b)`, `b` is absent from `a.linksTo` and `a` is
absent from `b.linksFrom` (both sides of the edge removed by the one
operation), and an active session on either endpoint whose derivation
origin is the other endpoint is terminated by the same operation. -/
theorem C6_unlink_symmetry (st : State) (a b : TOrigin) :
    b ∉ (getOD (unlinkOne st a b) a).linksTo ∧
    a ∉ (getOD (unlinkOne st a b) b).linksFrom ∧
    (∀ s : Session, (getOD st b).currentSession = some s → s.deriviationOrigin = a →
      (getOD (unlinkOne st a b) b).currentSession = none) ∧
    (∀ s : Session, (getOD st a).currentSession = some s → s.deriviationOrigin = b →
      (getOD (unlinkOne st a b) a).currentSession = none) := by
  refine ⟨?_, ?_, ?_, ?_⟩
  · rw [unlinkOne_linksTo, if_pos rfl]
    simp
  · rw [unlinkOne_linksFrom, if_pos rfl]
    simp
  · intro s hs hd
    exact unlinkOne_kills_b st a b s hs hd
  · intro s hs hd
    exact unlinkOne_kills_a st a b s hs hd

theorem C6_unlink_symmetry_witness :
    (getOD demoState dOrigin).currentSession = some ⟨0, gOrigin, 1⟩ ∧
    (getOD (unlinkOne demoState gOrigin dOrigin) gOrigin).linksTo = [] ∧
    dOrigin ∉ (getOD (unlinkOne demoState gOrigin dOrigin) gOrigin).linksTo ∧
    gOrigin ∉ (getOD (unlinkOne demoState gOrigin dOrigin) dOrigin).linksFrom ∧
    (getOD (unlinkOne demoState gOrigin dOrigin) dOrigin).currentSession = none :=
  have h := C6_unlink_symmetry demoState gOrigin dOrigin
  ⟨by decide, by decide, h.1, h.2.1, h.2.2.1 ⟨0, gOrigin, 1⟩ (by decide) (by decide)⟩

theorem insertOnce_mem (x y : TOrigin) (l : List TOrigin) :
    x ∈ insertOnce y l ↔ x ∈ l ∨ x = y := by
  unfold insertOnce
  split
  · rename_i hy
    constructor
    · exact fun h => Or.inl h
    · rintro (h | rfl)
      · exact h
      · exact hy
  · simp [List.mem_append]

theorem mirrorInv_of_links_eq (st st' : State)
    (hTo : ∀ x, (getOD st' x).linksTo = (getOD st x).linksTo)
    (hFrom : ∀ x, (getOD st' x).linksFrom = (getOD st x).linksFrom)
    (h : mirrorInv st) : mirrorInv st' := by
  constructor
  · intro A B
    rw [hTo A, hFrom B]
    exact h.1 A B
  · intro A
    rw [hTo A]
    exact h.2 A

theorem links_setOD_record (st : State) (t : TOrigin) (d : OriginData)
    (hTo : d.linksTo = (getOD st t).linksTo)
    (hFrom : d.linksFrom = (getOD st t).linksFrom) :
    ∀ x, (getOD (setOD st t d) x).linksTo = (getOD st x).linksTo ∧
         (getOD (setOD st t d) x).linksFrom = (getOD st x).linksFrom := by
  intro x
  rw [getOD_setOD]
  by_cases hxt : x = t
  · subst hxt
    rw [if_pos rfl]
    exact ⟨hTo, hFrom⟩
  · rw [if_neg hxt]
    exact ⟨rfl, rfl⟩

theorem linkS_linksTo (st : State) (a b x : TOrigin) (hab : a ≠ b) :
    (getOD (linkS st a b) x).linksTo =
      if x = a then insertOnce b (getOD st a).linksTo else (getOD st x).linksTo := by
  unfold linkS linkOp
  rw [if_neg hab]
  show (getOD (setOD (setOD st a _) b _) x).linksTo = _
  by_cases hxb : x = b
  · subst hxb
    have hxa : x ≠ a := fun hh => hab hh.symm
    simp [getOD_setOD, hxa]
  · by_cases hxa : x = a
    · subst hxa
      simp [getOD_setOD, hxb]
    · simp [getOD_setOD, hxb, hxa]

theorem linkS_linksFrom (st : State) (a b x : TOrigin) (hab : a ≠ b) :
    (getOD (linkS st a b) x).linksFrom =
      if x = b then insertOnce a (getOD st b).linksFrom else (getOD st x).linksFrom := by
  unfold linkS linkOp
  rw [if_neg hab]
  show (getOD (setOD (setOD st a _) b _) x).linksFrom = _
  by_cases hxb : x = b
  · subst hxb
    have hxa : x ≠ a := fun hh => hab hh.symm
    simp [getOD_setOD, hxa]
  · by_cases hxa : x = a
    · subst hxa
      simp [getOD_setOD, hxb]
    · simp [getOD_setOD, hxb, hxa]

theorem mirrorInv_linkS (st : State) (a b : TOrigin) (h : mirrorInv st) :
    mirrorInv (linkS st a b) := by
  by_cases hab : a = b
  · have heq : linkS st a b = st := by
      unfold linkS linkOp
      rw [if_pos hab]
    rw [heq]
    exact h
  · constructor
    · intro A B
      rw [linkS_linksTo st a b A hab, linkS_linksFrom st a b B hab]
      by_cases hAa : A = a
      · subst hAa
        by_cases hBb : B = b
        · subst hBb
          rw [if_pos rfl, if_pos rfl]
          simp [insertOnce_mem]
        · rw [if_pos rfl, if_neg hBb]
          rw [insertOnce_mem]
          constructor
          · rintro (hB | rfl)
            · exact (h.1 A B).mp hB
            · exact absurd rfl hBb
          · intro hB
            exact Or.inl ((h.1 A B).mpr hB)
      · rw [if_neg hAa]
        by_cases hBb : B = b
        · subst hBb
          rw [if_pos rfl, insertOnce_mem]
          constructor
          · intro hB
            exact Or.inl ((h.1 A B).mp hB)
          · rintro (hA | rfl)
            · exact (h.1 A B).mpr hA
            · exact absurd rfl hAa
        · rw [if_neg hBb]
          exact h.1 A B
    · intro A
      rw [linkS_linksTo st a b A hab]
      by_cases hAa : A = a
      · subst hAa
        rw [if_pos rfl, insertOnce_mem]
        rintro (hA | rfl)
        · exact h.2 A hA
        · exact hab rfl
      · rw [if_neg hAa]
        exact h.2 A

theorem mirrorInv_unlinkOne (st : State) (a b : TOrigin) (h : mirrorInv st) :
    mirrorInv (unlinkOne st a b) := by
  constructor
  · intro A B
    rw [unlinkOne_linksTo, unlinkOne_linksFrom]
    by_cases hAa : A = a
    · subst hAa
      by_cases hBb : B = b
      · subst hBb
        rw [if_pos rfl, if_pos rfl]
        simp [List.mem_filter]
      · rw [if_pos rfl, if_neg hBb]
        rw [List.mem_filter]
        simp only [decide_eq_true_eq]
        constructor
        · intro hB
          exact (h.1 A B).mp hB.1
        · intro hB
          exact ⟨(h.1 A B).mpr hB, hBb⟩
    · rw [if_neg hAa]
      by_cases hBb : B = b
      · subst hBb
        rw [if_pos rfl, List.mem_filter]
        simp only [decide_eq_true_eq]
        constructor
        · intro hB
          exact ⟨(h.1 A B).mp hB, hAa⟩
        · intro hB
          exact (h.1 A B).mpr hB.1
      · rw [if_neg hBb]
        exact h.1 A B
  · intro A
    rw [unlinkOne_linksTo]
    by_cases hAa : A = a
    · subst hAa
      rw [if_pos rfl, List.mem_filter]
      intro hA
      exact h.2 A hA.1
    · rw [if_neg hAa]
      exact h.2 A

theorem killSessionIfDerivIn_linksTo (d : OriginData) (os : List TOrigin) :
    (killSessionIfDerivIn d os).linksTo = d.linksTo := by
  unfold killSessionIfDerivIn
  split
  · split <;> rfl
  · rfl

theorem killSessionIfDerivIn_linksFrom (d : OriginData) (os : List TOrigin) :
    (killSessionIfDerivIn d os).linksFrom = d.linksFrom := by
  unfold killSessionIfDerivIn
  split
  · split <;> rfl
  · rfl

theorem filter_ne_idem (l : List TOrigin) (a : TOrigin) :
    (l.filter (fun x => x ≠ a)).filter (fun x => x ≠ a) = l.filter (fun x => x ≠ a) := by
  apply List.filter_eq_self.mpr
  intro x hx
  rw [List.mem_filter] at hx
  exact hx.2

theorem removeRec_linksTo (a : TOrigin) (d : OriginData) :
    (removeRec a d).linksTo = d.linksTo := by
  unfold removeRec
  rw [killDependentSession_linksTo]

theorem removeRec_linksFrom (a : TOrigin) (d : OriginData) :
    (removeRec a d).linksFrom = d.linksFrom.filter (fun x => x ≠ a) := by
  unfold removeRec
  rw [killDependentSession_linksFrom]

theorem removeRec_idem (a : TOrigin) (d : OriginData) :
    removeRec a (removeRec a d) = removeRec a d := by
  obtain ⟨ms, lf, lt, cs⟩ := d
  cases cs with
  | none => simp [removeRec, killDependentSession, filter_ne_idem]
  | some s =>
      by_cases hd : s.deriviationOrigin = a <;>
        simp [removeRec, killDependentSession, hd, filter_ne_idem]

theorem getOD_removeLinkFromTarget (a : TOrigin) (st : State) (b x : TOrigin) :
    getOD (removeLinkFromTarget a st b) x =
      if x = b then removeRec a (getOD st b) else getOD st x := by
  unfold removeLinkFromTarget
  rw [getOD_setOD]

theorem getOD_foldl_remove (a : TOrigin) (old : List TOrigin) (st : State) (x : TOrigin) :
    getOD (old.foldl (removeLinkFromTarget a) st) x =
      if x ∈ old then removeRec a (getOD st x) else getOD st x := by
  induction old generalizing st with
  | nil => simp
  | cons hd tl ih =>
      rw [List.foldl_cons, ih, getOD_removeLinkFromTarget]
      by_cases hxh : x = hd
      · subst hxh
        by_cases hmem : x ∈ tl <;> simp [hmem, removeRec_idem]
      · by_cases hmem : x ∈ tl <;> simp [hxh, hmem]

theorem unlinkAll_linksTo (st : State) (a x : TOrigin) :
    (getOD (unlinkAll st a) x).linksTo =
      if x = a then [] else (getOD st x).linksTo := by
  unfold unlinkAll
  rw [getOD_setOD]
  by_cases hxa : x = a
  · subst hxa
    rw [if_pos rfl, if_pos rfl, killSessionIfDerivIn_linksTo]
  · rw [if_neg hxa, if_neg hxa, getOD_foldl_remove]
    by_cases hmem : x ∈ (getOD st a).linksTo <;> simp [hmem, removeRec_linksTo]

theorem unlinkAll_linksFrom (st : State) (a x : TOrigin) :
    (getOD (unlinkAll st a) x).linksFrom =
      if x ∈ (getOD st a).linksTo then (getOD st x).linksFrom.filter (fun y => y ≠ a)
      else (getOD st x).linksFrom := by
  unfold unlinkAll
  rw [getOD_setOD]
  by_cases hxa : x = a
  · subst hxa
    rw [if_pos rfl, killSessionIfDerivIn_linksFrom]
    show (getOD (List.foldl _ _ _) x).linksFrom = _
    rw [getOD_foldl_remove]
    by_cases hmem : x ∈ (getOD st x).linksTo <;> simp [hmem, removeRec_linksFrom]
  · rw [if_neg hxa, getOD_foldl_remove]
    by_cases hmem : x ∈ (getOD st a).linksTo <;> simp [hmem, removeRec_linksFrom]

theorem mirrorInv_unlinkAll (st : State) (a : TOrigin) (h : mirrorInv st) :
    mirrorInv (unlinkAll st a) := by
  constructor
  · intro A B
    rw [unlinkAll_linksTo, unlinkAll_linksFrom]
    by_cases hAa : A = a
    · subst hAa
      rw [if_pos rfl]
      simp only [List.not_mem_nil, false_iff]
      by_cases hmem : B ∈ (getOD st A).linksTo
      · rw [if_pos hmem, List.mem_filter]
        simp only [decide_eq_true_eq]
        intro hx
        exact hx.2 rfl
      · rw [if_neg hmem]
        intro hinB
        exact hmem ((h.1 A B).mpr hinB)
    · rw [if_neg hAa]
      by_cases hmem : B ∈ (getOD st a).linksTo
      · rw [if_pos hmem, List.mem_filter]
        simp only [decide_eq_true_eq]
        constructor
        · intro hB
          exact ⟨(h.1 A B).mp hB, hAa⟩
        · intro hB
          exact (h.1 A B).mpr hB.1
      · rw [if_neg hmem]
        exact h.1 A B
  · intro A
    rw [unlinkAll_linksTo]
    by_cases hAa : A = a
    · simp [hAa]
    · rw [if_neg hAa]
      exact h.2 A

theorem mirrorInv_setOD_session (st : State) (t : TOrigin) (cs : Option Session)
    (h : mirrorInv st) :
    mirrorInv (setOD st t { getOD st t with currentSession := cs }) := by
  refine mirrorInv_of_links_eq st _ ?_ ?_ h
  · intro x
    exact (links_setOD_record st t { getOD st t with currentSession := cs } rfl rfl x).1
  · intro x
    exact (links_setOD_record st t { getOD st t with currentSession := cs } rfl rfl x).2

theorem mirrorInv_loginS (st : State) (t : TOrigin) (i : Nat) (lo : Option TOrigin)
    (n : Nat) (h : mirrorInv st) : mirrorInv (loginS st t i lo n) := by
  cases lo with
  | none =>
      unfold loginS login
      show mirrorInv (setOD st t _)
      exact mirrorInv_setOD_session st t _ h
  | some l =>
      unfold loginS login
      by_cases hmem : l ∈ (getOD st t).linksFrom
      · simp only [hmem, ite_true]
        show mirrorInv (setOD st t _)
        exact mirrorInv_setOD_session st t _ h
      · simp only [hmem, ite_false]
        exact h

theorem mirrorInv_logout (st : State) (a : TOrigin) (h : mirrorInv st) :
    mirrorInv (logout st a) := by
  unfold logout
  exact mirrorInv_setOD_session st a none h

theorem mirrorInv_addMask (me : Bytes) (st : State) (a : TOrigin) (h : mirrorInv st) :
    mirrorInv (addMask me st a) := by
  unfold addMask
  refine mirrorInv_of_links_eq st _ ?_ ?_ h
  · intro x
    exact (links_setOD_record st a
      { getOD st a with
        masks := (getOD st a).masks ++ [maskFor me a (getOD st a).masks.length] } rfl rfl x).1
  · intro x
    exact (links_setOD_record st a
      { getOD st a with
        masks := (getOD st a).masks ++ [maskFor me a (getOD st a).masks.length] } rfl rfl x).2

/-- C7: the link-mirror invariant is preserved by every state-mutating
operation (link, unlinkOne, unlinkAll, login, logout, mask creation): if
`B ∈ A.linksTo ↔ A ∈ B.linksFrom` holds for all origins and no origin
links to itself, the same holds after the operation. -/
theorem C7_mirror_invariant (me : Bytes) (st : State) (op : RegOp) (h : mirrorInv st) :
    mirrorInv (applyOp me st op) := by
  cases op with
  | opLink a b => exact mirrorInv_linkS st a b h
  | opUnlinkOne a b => exact mirrorInv_unlinkOne st a b h
  | opUnlinkAll a => exact mirrorInv_unlinkAll st a h
  | opLogin t i lo n => exact mirrorInv_loginS st t i lo n h
  | opLogout a => exact mirrorInv_logout st a h
  | opAddMask a => exact mirrorInv_addMask me st a h

theorem C7_mirror_invariant_witness :
    mirrorInv ([] : State) ∧ mirrorInv (applyOp demoEntropy [] (.opLink gOrigin dOrigin)) :=
  have hempty : mirrorInv ([] : State) := by
    constructor
    · intro A B
      show B ∈ (OriginData.empty).linksTo ↔ A ∈ (OriginData.empty).linksFrom
      simp [OriginData.empty]
    · intro A
      show A ∉ (OriginData.empty).linksTo
      simp [OriginData.empty]
  ⟨hempty, C7_mirror_invariant demoEntropy [] (.opLink gOrigin dOrigin) hempty⟩

/-- C4: link transitivity of identity.  With the edge `A → B` established
(`A ∈ B.linksFrom`) and `i` addressing a mask under `A`, logging `A` in
directly and then logging `B` in with `withLinkedOrigin = A` (both with
identity `i`) leaves two sessions whose `getPublicKey` results coincide
and whose signatures over any identical `(request, salt)` coincide. -/
theorem C4_link_transitivity (me : Bytes) (st0 : State) (A B : TOrigin) (i : Nat)
    (n1 n2 : Nat) (_hmask : i < ((getOD st0 A).masks).length)
    (hlinked : A ∈ (getOD st0 B).linksFrom) :
    ∀ st1 st2, login st0 A i none n1 = .ok st1 → login st1 B i (some A) n2 = .ok st2 →
      handleIdentityGetPublicKey me st2 B = handleIdentityGetPublicKey me st2 A ∧
      (∀ request salt : Bytes, handleIdentitySign me st2 B request salt
          = handleIdentitySign me st2 A request salt) := by
  intro st1 st2 h1 h2
  have h1' : setOD st0 A { getOD st0 A with currentSession := some ⟨i, A, n1⟩ } = st1 :=
    Except.ok.inj h1
  have hlinked1 : A ∈ (getOD st1 B).linksFrom := by
    rw [← h1', getOD_setOD]
    by_cases hBA : B = A
    · rw [if_pos hBA]
      show A ∈ (getOD st0 A).linksFrom
      exact hBA ▸ hlinked
    · rw [if_neg hBA]
      exact hlinked
  have h2' : setOD st1 B { getOD st1 B with currentSession := some ⟨i, A, n2⟩ } = st2 := by
    unfold login at h2
    simp only [hlinked1, ite_true] at h2
    exact Except.ok.inj h2
  have hsB : (getOD st2 B).currentSession = some ⟨i, A, n2⟩ := by
    rw [← h2', getOD_setOD, if_pos rfl]
  by_cases hAB : A = B
  · rw [hAB]
    exact ⟨rfl, fun _ _ => rfl⟩
  · have hsA : (getOD st2 A).currentSession = some ⟨i, A, n1⟩ := by
      rw [← h2', getOD_setOD, if_neg hAB, ← h1', getOD_setOD, if_pos rfl]
    constructor
    · unfold handleIdentityGetPublicKey
      rw [hsB, hsA]
    · intro request salt
      unfold handleIdentitySign
      rw [hsB, hsA]

theorem C4_link_transitivity_witness :
    0 < ((getOD demoState gOrigin).masks).length ∧
    gOrigin ∈ (getOD demoState dOrigin).linksFrom ∧
    login demoState gOrigin 0 none 5 = .ok c4State1 ∧
    login c4State1 dOrigin 0 (some gOrigin) 6 = .ok c4State2 ∧
    (handleIdentityGetPublicKey demoEntropy c4State2 dOrigin
       = handleIdentityGetPublicKey demoEntropy c4State2 gOrigin ∧
     ∀ request salt : Bytes, handleIdentitySign demoEntropy c4State2 dOrigin request salt
       = handleIdentitySign demoEntropy c4State2 gOrigin request salt) :=
  ⟨by decide, by decide, by decide, by decide,
    C4_link_transitivity demoEntropy demoState gOrigin dOrigin 0 5 6 (by decide) (by decide)
      c4State1 c4State2 (by decide) (by decide)⟩

end MsqSnap
